import Mathlib

/-!
Verification of the pyslsk Soulseek-client core (shallow embedding).

Bytes are modelled as `Nat` (values < 256 on real wire data); byte strings
as `List Nat`.  Python text strings are modelled by their UTF-8 byte
encodings: Python's `str.encode("utf-8")` / `decode("utf-8")` are inverse
on valid encodings, so recovering the byte encoding is recovering the
string.  Fallible Python functions (ones that raise) return `Option`.
-/

namespace Pyslsk

/-- A decoded message, `{"code": ..., "payload": ...}` in `protocol.parse_message`. -/
structure Msg where
  code : Nat
  payload : List Nat
  deriving DecidableEq, Repr

/-- Message codes from `constants.py`. -/
def MSG_LOGIN : Nat := 0x01

/-- `MSG_LOGIN_OK` from `constants.py`. -/
def MSG_LOGIN_OK : Nat := 0x02

/-- `MSG_LOGIN_ERROR` from `constants.py`. -/
def MSG_LOGIN_ERROR : Nat := 0x03

/-- `MSG_SEARCH_REQUEST` from `constants.py`. -/
def MSG_SEARCH_REQUEST : Nat := 0x10

/-- `MSG_SEARCH_RESULT` from `constants.py`. -/
def MSG_SEARCH_RESULT : Nat := 0x11

/-- `MSG_DOWNLOAD_REQUEST` from `constants.py`. -/
def MSG_DOWNLOAD_REQUEST : Nat := 0x30

/-- `struct.pack("!I", n)`: four big-endian bytes of `n` (requires `n < 2^32`). -/
def u32bytes (n : Nat) : List Nat :=
  [n / 16777216 % 256, n / 65536 % 256, n / 256 % 256, n % 256]

/-- `struct.pack("!H", n)`: two big-endian bytes of `n` (requires `n < 2^16`). -/
def u16bytes (n : Nat) : List Nat :=
  [n / 256 % 256, n % 256]

/-- `struct.unpack_from("!I", buf, 0)`: big-endian u32 read from the first four
bytes.  Callers in the source only read after checking `len(buf) >= 4`;
on shorter input we return 0 (the source would raise). -/
def readU32 : List Nat → Nat
  | a :: b :: c :: d :: _ => ((a * 256 + b) * 256 + c) * 256 + d
  | _ => 0

/-- `struct.unpack_from("!H", buf, off)` via dropping: big-endian u16 from the
first two bytes. -/
def readU16 : List Nat → Nat
  | a :: b :: _ => a * 256 + b
  | _ => 0

/-- `protocol.pack_message(code, payload)`:
`struct.pack("!I", 1+len(payload)) + struct.pack("!B", code) + payload`.
`struct.pack` raises (`none`) when `code` does not fit one byte or the
length does not fit four bytes. -/
def pack_message (code : Nat) (payload : List Nat) : Option (List Nat) :=
  let length := 1 + payload.length
  if code < 256 ∧ length < 4294967296 then
    some (u32bytes length ++ code :: payload)
  else
    none

/-- `protocol.parse_message(raw)`: raises (`none`) when `len(raw) < 5`;
otherwise reads the u32 length at offset 0, the one-byte code at offset 4,
and takes `raw[5 : 5 + (length - 1)]` as payload. -/
def parse_message (raw : List Nat) : Option Msg :=
  if raw.length < 5 then none
  else
    let length := readU32 raw
    let code := raw.getD 4 0
    some ⟨code, (raw.drop 5).take (length - 1)⟩

/-- `protocol.pack_string(s)`: `struct.pack("!H", len(data)) + data` where
`data = s.encode("utf-8")`; the argument here is that encoding.
`struct.pack("!H", ...)` raises (`none`) when the length exceeds 65535. -/
def pack_string (data : List Nat) : Option (List Nat) :=
  if data.length ≤ 65535 then some (u16bytes data.length ++ data) else none

/-- `protocol.unpack_string(data, offset)`: raises (`none`) when fewer than two
bytes remain for the length or fewer than `ln` bytes remain for the content;
otherwise returns the content bytes (the source decodes them to text with
`errors="replace"`, the identity on valid UTF-8) and the advanced offset. -/
def unpack_string (data : List Nat) (offset : Nat) : Option (List Nat × Nat) :=
  if offset + 2 > data.length then none
  else
    let ln := readU16 (data.drop offset)
    if offset + 2 + ln > data.length then none
    else some ((data.drop (offset + 2)).take ln, offset + 2 + ln)

/-- `protocol.build_login(username, password)` over UTF-8 encodings. -/
def build_login (username password : List Nat) : Option (List Nat) := do
  let u ← pack_string username
  let p ← pack_string password
  pack_message MSG_LOGIN (u ++ p)

/-- `protocol.build_search(query)` over the UTF-8 encoding of the query. -/
def build_search (query : List Nat) : Option (List Nat) := do
  let q ← pack_string query
  pack_message MSG_SEARCH_REQUEST q

/-- `protocol.build_download_request(user, remote_path)` over UTF-8 encodings. -/
def build_download_request (user remote_path : List Nat) : Option (List Nat) := do
  let u ← pack_string user
  let r ← pack_string remote_path
  pack_message MSG_DOWNLOAD_REQUEST (u ++ r)

lemma readU32_u32bytes (n : Nat) (h : n < 4294967296) (rest : List Nat) :
    readU32 (u32bytes n ++ rest) = n := by
  simp only [u32bytes, List.cons_append, List.nil_append, readU32]
  omega

lemma readU16_u16bytes (n : Nat) (h : n ≤ 65535) (rest : List Nat) :
    readU16 (u16bytes n ++ rest) = n := by
  simp only [u16bytes, List.cons_append, List.nil_append, readU16]
  omega

lemma u32bytes_length (n : Nat) : (u32bytes n).length = 4 := rfl

lemma parse_pack (code : Nat) (payload : List Nat)
    (hc : code < 256) (hl : 1 + payload.length < 4294967296) :
    pack_message code payload = some (u32bytes (1 + payload.length) ++ code :: payload) ∧
    parse_message (u32bytes (1 + payload.length) ++ code :: payload) = some ⟨code, payload⟩ := by
  constructor
  · simp [pack_message, hc, hl]
  · have hlen : (u32bytes (1 + payload.length) ++ code :: payload).length = 5 + payload.length := by
      simp only [u32bytes, List.length_append, List.length_cons, List.length_nil]
      omega
    have hr : readU32 (u32bytes (1 + payload.length) ++ code :: payload) = 1 + payload.length :=
      readU32_u32bytes _ hl _
    simp only [parse_message, hlen, hr]
    have h5 : ¬ 5 + payload.length < 5 := by omega
    simp only [h5, if_false]
    have hd : ((u32bytes (1 + payload.length) ++ code :: payload).drop 5) = payload := by
      simp [u32bytes]
    have hg : (u32bytes (1 + payload.length) ++ code :: payload)[4]? = some code := by
      simp [u32bytes]
    have ht : 1 + payload.length - 1 = payload.length := by omega
    simp [List.getD, hd, hg, ht]

/-- C5: for every one-byte type code and every payload whose frame length fits
the four-byte length field (in particular every payload of the zero-length
case), `parse_message` inverts `pack_message`: the decoded code and payload
equal the originals, and the encoded frame's big-endian length field holds
`1 + len(payload)`. -/
theorem pack_parse_roundtrip (code : Nat) (payload : List Nat)
    (hc : code < 256) (hl : 1 + payload.length < 4294967296) :
    ∃ enc, pack_message code payload = some enc ∧
      parse_message enc = some ⟨code, payload⟩ ∧
      readU32 enc = 1 + payload.length ∧
      enc.length = 4 + (1 + payload.length) := by
  refine ⟨u32bytes (1 + payload.length) ++ code :: payload, ?_, ?_, ?_, ?_⟩
  · exact (parse_pack code payload hc hl).1
  · exact (parse_pack code payload hc hl).2
  · exact readU32_u32bytes _ hl _
  · simp only [u32bytes, List.length_append, List.length_cons, List.length_nil]
    omega

/-- C5 witness: the round-trip theorem applied at type code 0x11 with the
zero-length payload, and at type code 2 with payload `[7, 8, 9]`. -/
theorem pack_parse_roundtrip_witness :
    (17 < 256 ∧ 1 + ([] : List Nat).length < 4294967296 ∧
      ∃ enc, pack_message 17 [] = some enc ∧
        parse_message enc = some ⟨17, []⟩ ∧
        readU32 enc = 1 + ([] : List Nat).length ∧
        enc.length = 4 + (1 + ([] : List Nat).length)) ∧
    (2 < 256 ∧ 1 + [7, 8, 9].length < 4294967296 ∧
      ∃ enc, pack_message 2 [7, 8, 9] = some enc ∧
        parse_message enc = some ⟨2, [7, 8, 9]⟩ ∧
        readU32 enc = 1 + [7, 8, 9].length ∧
        enc.length = 4 + (1 + [7, 8, 9].length)) :=
  ⟨⟨by decide, by decide, pack_parse_roundtrip 17 [] (by decide) (by decide)⟩,
   ⟨by decide, by decide, pack_parse_roundtrip 2 [7, 8, 9] (by decide) (by decide)⟩⟩

lemma unpack_pack (data : List Nat) (h : data.length ≤ 65535) :
    unpack_string (u16bytes data.length ++ data) 0 = some (data, 2 + data.length) := by
  have hlen : (u16bytes data.length ++ data).length = 2 + data.length := by
    simp only [u16bytes, List.length_append, List.length_cons, List.length_nil]
    try omega
  have hr : readU16 ((u16bytes data.length ++ data).drop 0) = data.length := by
    simpa using readU16_u16bytes data.length h data
  simp only [unpack_string, hlen, hr]
  have h2 : ¬ 0 + 2 > 2 + data.length := by omega
  have h3 : ¬ 0 + 2 + data.length > 2 + data.length := by omega
  simp only [h2, if_false, h3]
  have hd : (u16bytes data.length ++ data).drop (0 + 2) = data := by
    simp [u16bytes]
  simp [hd]

/-- C10: for every string whose UTF-8 encoding has at most 65535 bytes,
`pack_string` succeeds with a two-byte big-endian length prefix followed by
the bytes, and `unpack_string` recovers exactly those bytes (hence the
original string); for every string whose encoding exceeds 65535 bytes,
`pack_string` raises, and therefore `build_login`, `build_search` and
`build_download_request` raise (return no frame) whenever any of their
string arguments is oversized. -/
theorem pack_string_partiality (data big other : List Nat)
    (h : data.length ≤ 65535) (hbig : big.length > 65535) :
    (pack_string data = some (u16bytes data.length ++ data) ∧
      unpack_string (u16bytes data.length ++ data) 0 = some (data, 2 + data.length)) ∧
    (pack_string big = none ∧
      build_login big other = none ∧ build_login other big = none ∧
      build_search big = none ∧
      build_download_request big other = none ∧ build_download_request other big = none) := by
  have hpb : pack_string big = none := by
    simp only [pack_string]
    have : ¬ big.length ≤ 65535 := by omega
    simp [this]
  refine ⟨⟨by simp [pack_string, h], unpack_pack data h⟩, hpb, ?_, ?_, ?_, ?_, ?_⟩
  · simp [build_login, hpb]
  · cases hpo : pack_string other with
    | none => simp [build_login, hpo]
    | some u => simp [build_login, hpo, hpb]
  · simp [build_search, hpb]
  · simp [build_download_request, hpb]
  · cases hpo : pack_string other with
    | none => simp [build_download_request, hpo]
    | some u => simp [build_download_request, hpo, hpb]

/-- C10 witness: the partiality theorem applied to the three-byte string
`[104, 105, 33]` and an oversized 65536-byte string. -/
theorem pack_string_partiality_witness :
    ([104, 105, 33] : List Nat).length ≤ 65535 ∧
    (List.replicate 65536 (97 : Nat)).length > 65535 ∧
    ((pack_string [104, 105, 33] =
        some (u16bytes ([104, 105, 33] : List Nat).length ++ [104, 105, 33]) ∧
      unpack_string (u16bytes ([104, 105, 33] : List Nat).length ++ [104, 105, 33]) 0 =
        some ([104, 105, 33], 2 + ([104, 105, 33] : List Nat).length)) ∧
     (pack_string (List.replicate 65536 97) = none ∧
      build_login (List.replicate 65536 97) [104, 105, 33] = none ∧
      build_login [104, 105, 33] (List.replicate 65536 97) = none ∧
      build_search (List.replicate 65536 97) = none ∧
      build_download_request (List.replicate 65536 97) [104, 105, 33] = none ∧
      build_download_request [104, 105, 33] (List.replicate 65536 97) = none)) :=
  ⟨by decide, by rw [List.length_replicate]; decide,
   pack_string_partiality [104, 105, 33] (List.replicate 65536 97) [104, 105, 33]
     (by decide) (by rw [List.length_replicate]; decide)⟩

/-- `protocol.iter_frames(buffer)`: repeatedly peeks the four-byte big-endian
length; while at least `4 + length` bytes are buffered it removes and yields
the `4 + length`-byte frame.  It stops (yielding nothing further) when fewer
than 4 bytes, or fewer than `4 + length` bytes, remain.  The generator's
yields are collected into a list, paired with the final (mutated) buffer. -/
def iter_frames (buf : List Nat) : List (List Nat) × List Nat :=
  if buf.length < 4 then ([], buf)
  else
    let length := readU32 buf
    if buf.length < 4 + length then ([], buf)
    else
      let p := iter_frames (buf.drop (4 + length))
      (buf.take (4 + length) :: p.1, p.2)
termination_by buf.length
decreasing_by simp only [List.length_drop]; omega

/-- `connection.ServerConnection._recv_loop`'s buffering: each received chunk
is appended to the accumulation buffer and `iter_frames` is run on it; the
frames extracted after each append are concatenated in order. -/
def feedChunks : List Nat → List (List Nat) → List (List Nat) × List Nat
  | buf, [] => ([], buf)
  | buf, c :: cs =>
    let p := iter_frames (buf ++ c)
    let q := feedChunks p.2 cs
    (p.1 ++ q.1, q.2)

lemma iter_frames_stop (buf : List Nat)
    (h : buf.length < 4 ∨ buf.length < 4 + readU32 buf) :
    iter_frames buf = ([], buf) := by
  rw [iter_frames]
  rcases h with h | h
  · simp [h]
  · by_cases h4 : buf.length < 4 <;> simp [h4, h]

lemma iter_frames_step (buf : List Nat) (h4 : ¬ buf.length < 4)
    (hl : ¬ buf.length < 4 + readU32 buf) :
    iter_frames buf =
      (buf.take (4 + readU32 buf) :: (iter_frames (buf.drop (4 + readU32 buf))).1,
       (iter_frames (buf.drop (4 + readU32 buf))).2) := by
  rw [iter_frames]
  simp [h4, hl]

lemma readU32_append : ∀ (buf ext : List Nat), 4 ≤ buf.length →
    readU32 (buf ++ ext) = readU32 buf
  | _ :: _ :: _ :: _ :: _, _, _ => rfl
  | [], _, h => by simp at h
  | [_], _, h => by simp at h
  | [_, _], _, h => by simp at h
  | [_, _, _], _, h => by simp at h

lemma iter_frames_residual_aux : ∀ (n : Nat) (buf : List Nat), buf.length ≤ n →
    iter_frames (iter_frames buf).2 = ([], (iter_frames buf).2)
  | 0, buf, hb => by
    have h4 : buf.length < 4 := by omega
    rw [iter_frames_stop buf (Or.inl h4)]
    exact iter_frames_stop buf (Or.inl h4)
  | n + 1, buf, hb => by
    by_cases h4 : buf.length < 4
    · rw [iter_frames_stop buf (Or.inl h4)]
      exact iter_frames_stop buf (Or.inl h4)
    · by_cases hl : buf.length < 4 + readU32 buf
      · rw [iter_frames_stop buf (Or.inr hl)]
        exact iter_frames_stop buf (Or.inr hl)
      · rw [iter_frames_step buf h4 hl]
        exact iter_frames_residual_aux n (buf.drop (4 + readU32 buf))
          (by simp only [List.length_drop]; omega)

/-- The leftover buffer of an extraction is unproductive: running extraction
again on it yields nothing and leaves it unchanged. -/
lemma iter_frames_residual (buf : List Nat) :
    iter_frames (iter_frames buf).2 = ([], (iter_frames buf).2) :=
  iter_frames_residual_aux buf.length buf le_rfl

lemma iter_frames_append_aux : ∀ (n : Nat) (buf ext : List Nat), buf.length ≤ n →
    iter_frames (buf ++ ext) =
      ((iter_frames buf).1 ++ (iter_frames ((iter_frames buf).2 ++ ext)).1,
       (iter_frames ((iter_frames buf).2 ++ ext)).2)
  | 0, buf, ext, hb => by
    have h4 : buf.length < 4 := by omega
    rw [iter_frames_stop buf (Or.inl h4)]
    simp
  | n + 1, buf, ext, hb => by
    by_cases h4 : buf.length < 4
    · rw [iter_frames_stop buf (Or.inl h4)]
      simp
    · by_cases hl : buf.length < 4 + readU32 buf
      · rw [iter_frames_stop buf (Or.inr hl)]
        simp
      · have hL : 4 + readU32 buf ≤ buf.length := by omega
        have hr : readU32 (buf ++ ext) = readU32 buf :=
          readU32_append buf ext (by omega)
        have h4e : ¬ (buf ++ ext).length < 4 := by
          simp only [List.length_append]; omega
        have hle : ¬ (buf ++ ext).length < 4 + readU32 (buf ++ ext) := by
          simp only [List.length_append, hr]; omega
        rw [iter_frames_step (buf ++ ext) h4e hle, iter_frames_step buf h4 hl]
        simp only [hr, List.take_append_of_le_length hL, List.drop_append_of_le_length hL]
        rw [iter_frames_append_aux n (buf.drop (4 + readU32 buf)) ext
          (by simp only [List.length_drop]; omega)]
        simp

/-- Appending bytes to a buffer extends the extracted frame sequence: the
frames of `buf ++ ext` are the frames of `buf` followed by the frames of
the leftover of `buf` joined with `ext`. -/
lemma iter_frames_append (buf ext : List Nat) :
    iter_frames (buf ++ ext) =
      ((iter_frames buf).1 ++ (iter_frames ((iter_frames buf).2 ++ ext)).1,
       (iter_frames ((iter_frames buf).2 ++ ext)).2) :=
  iter_frames_append_aux buf.length buf ext le_rfl

lemma feedChunks_eq : ∀ (buf : List Nat) (chunks : List (List Nat)),
    iter_frames buf = ([], buf) →
    feedChunks buf chunks = iter_frames (buf ++ chunks.flatten)
  | buf, [], h => by simpa [feedChunks] using h.symm
  | buf, c :: cs, _ => by
    have hres := iter_frames_residual (buf ++ c)
    have ih := feedChunks_eq (iter_frames (buf ++ c)).2 cs hres
    have happ := iter_frames_append (buf ++ c) cs.flatten
    simp only [feedChunks, ih, List.flatten_cons, ← List.append_assoc, happ]

/-- C2: incremental frame extraction is equivalent to batch extraction.
First conjunct: for every byte stream and every split of it into chunks,
extracting frames after each append yields, in order, exactly the frames of
one extraction over the whole stream, with the same final leftover buffer.
Second and third conjuncts: when fewer than 4 bytes, or fewer than
`4 + length` bytes, are buffered, no frame is yielded and the unconsumed
remainder is left in the buffer (so no frame appears before all of its
`4 + length` bytes have arrived). -/
theorem incremental_batch_equiv :
    (∀ chunks : List (List Nat), feedChunks [] chunks = iter_frames chunks.flatten) ∧
    (∀ buf : List Nat, buf.length < 4 → iter_frames buf = ([], buf)) ∧
    (∀ buf : List Nat, 4 ≤ buf.length → buf.length < 4 + readU32 buf →
      iter_frames buf = ([], buf)) := by
  refine ⟨fun chunks => ?_, fun buf h => iter_frames_stop buf (Or.inl h),
    fun buf _ h => iter_frames_stop buf (Or.inr h)⟩
  have h0 : iter_frames ([] : List Nat) = ([], []) := iter_frames_stop [] (by simp)
  simpa using feedChunks_eq [] chunks h0

/-- C2 witness: the equivalence at a concrete three-chunk split of a stream
holding two frames, and the stopping clauses at `[9, 9]` (fewer than 4
bytes) and `[0, 0, 0, 5, 1]` (fewer than `4 + 5` bytes). -/
theorem incremental_batch_equiv_witness :
    (feedChunks [] [[0, 0], [0, 1, 42, 0], [0, 0, 2, 7, 7]] =
      iter_frames ([[0, 0], [0, 1, 42, 0], [0, 0, 2, 7, 7]] : List (List Nat)).flatten) ∧
    (([9, 9] : List Nat).length < 4 ∧ iter_frames [9, 9] = ([], [9, 9])) ∧
    (4 ≤ ([0, 0, 0, 5, 1] : List Nat).length ∧
      ([0, 0, 0, 5, 1] : List Nat).length < 4 + readU32 [0, 0, 0, 5, 1] ∧
      iter_frames [0, 0, 0, 5, 1] = ([], [0, 0, 0, 5, 1])) :=
  ⟨incremental_batch_equiv.1 [[0, 0], [0, 1, 42, 0], [0, 0, 2, 7, 7]],
   ⟨by decide, incremental_batch_equiv.2.1 [9, 9] (by decide)⟩,
   ⟨by decide, by decide,
    incremental_batch_equiv.2.2 [0, 0, 0, 5, 1] (by decide) (by decide)⟩⟩

/-!
Message dispatcher (`client.SoulseekClient._dispatch_message`).

A pending wait is a `(predicate, future)` pair in `self._message_waiters`,
held in registration order.  Each future is created fresh by
`_wait_for_message`, so the pairs are pairwise distinct and
`list.remove((pred, fut))` removes exactly the iterated entry.  A waiter is
modelled by its predicate and its future's `done()` flag (a future is done
when already fulfilled, or cancelled by a timeout that has not yet removed
it from the list).
-/

/-- One entry of `SoulseekClient._message_waiters`. -/
structure Waiter where
  pred : Msg → Bool
  done : Bool

/-- The waiter pass of `_dispatch_message`: iterate a snapshot of the pending
list in registration order; every waiter whose future is not done and whose
predicate holds on the message has its future fulfilled with the message and
is removed.  Returns `(remaining pending list, fulfilled waiters in order)`.
The source loop has no break: it does not stop at the first match. -/
def dispatchWaiters (msg : Msg) : List Waiter → List Waiter × List Waiter
  | [] => ([], [])
  | w :: ws =>
    let p := dispatchWaiters msg ws
    if !w.done && w.pred msg then (p.1, w :: p.2) else (w :: p.1, p.2)

/-- C1 counterexample: two pending waits whose predicates both accept every
message (as two concurrent `_wait_for_message` calls with overlapping
predicates would register).  Dispatching one message fulfills BOTH waits and
leaves neither pending, contradicting the claim that at most one wait — the
earliest-registered matching one — is fulfilled while every other matching
wait remains pending. -/
theorem dispatch_single_fulfillment_cex :
    ((dispatchWaiters ⟨0, []⟩
        [⟨fun _ => true, false⟩, ⟨fun _ => true, false⟩]).2).length = 2 ∧
    ((dispatchWaiters ⟨0, []⟩
        [⟨fun _ => true, false⟩, ⟨fun _ => true, false⟩]).1).length = 0 := by
  constructor <;> rfl

/-- C1 amended: for every dispatched message, EVERY pending wait whose future
is not yet done and whose predicate returns true on the message is fulfilled
(in registration order) and removed from the pending set — not only the
earliest-registered one — and exactly the waits that are done or whose
predicate returns false remain pending, in their original order. -/
theorem dispatch_all_matching_fulfilled (msg : Msg) (ws : List Waiter) :
    (dispatchWaiters msg ws).2 = ws.filter (fun w => !w.done && w.pred msg) ∧
    (dispatchWaiters msg ws).1 = ws.filter (fun w => !(!w.done && w.pred msg)) := by
  induction ws with
  | nil => exact ⟨rfl, rfl⟩
  | cons w ws ih =>
    by_cases h : (!w.done && w.pred msg) = true
    · simp [dispatchWaiters, h, List.filter, ih.1, ih.2]
    · simp only [Bool.not_eq_true] at h
      simp [dispatchWaiters, h, List.filter, ih.1, ih.2]

/-!
Auth manager (`auth.AuthManager.authenticate`).

`authenticate` sends the login frame and then awaits
`_wait_for_message(lambda m: m["code"] in (MSG_LOGIN_OK, MSG_LOGIN_ERROR),
timeout)`.  The wait primitive resolves with the first message arriving
within the timeout that satisfies the predicate; if none arrives before the
deadline, `asyncio.wait_for` raises `asyncio.TimeoutError`, which
`authenticate` does not catch.  The messages that arrive before the deadline
are modelled as a list in arrival order.
-/

/-- Outcome of `AuthManager.authenticate`. -/
inductive AuthOutcome where
  | success
  | authenticationError
  | protocolError
  | timeoutError
  deriving DecidableEq, Repr

/-- The wait predicate of `authenticate`:
`m["code"] in (MSG_LOGIN_OK, MSG_LOGIN_ERROR)`. -/
def authPred (m : Msg) : Bool :=
  m.code == MSG_LOGIN_OK || m.code == MSG_LOGIN_ERROR

/-- `SoulseekClient._wait_for_message`: the first arriving message matching
the predicate, or `none` when the timeout expires with no match. -/
def wait_for_message (pred : Msg → Bool) (arrivals : List Msg) : Option Msg :=
  arrivals.find? pred

/-- `AuthManager.authenticate`, as a function of the messages arriving within
the timeout: return on `MSG_LOGIN_OK`, raise `AuthenticationError` on
`MSG_LOGIN_ERROR`, raise `ProtocolError` on any other matched code, and let
`asyncio.TimeoutError` propagate when the wait times out. -/
def authenticate (arrivals : List Msg) : AuthOutcome :=
  match wait_for_message authPred arrivals with
  | none => .timeoutError
  | some m =>
    if m.code == MSG_LOGIN_OK then .success
    else if m.code == MSG_LOGIN_ERROR then .authenticationError
    else .protocolError

/-- C3 counterexample: when the timeout expires with no matching reply
(no message arrives at all), `authenticate` raises `asyncio.TimeoutError`,
not the library's `ProtocolError` — the claim that every outcome other than
login-accepted/login-rejected raises a protocol error is false. -/
theorem authenticate_timeout_cex :
    authenticate [] = .timeoutError ∧ AuthOutcome.timeoutError ≠ .protocolError :=
  ⟨rfl, by decide⟩

/-- C3 amended: if the first login reply (`MSG_LOGIN_OK` or
`MSG_LOGIN_ERROR`) arriving within the timeout is login-accepted the call
returns successfully; if it is login-rejected the call raises an
authentication error; if the timeout expires with no matching reply the call
raises a timeout error (`asyncio.TimeoutError`), not a protocol error; and
the protocol-error branch is unreachable, because the wait predicate only
matches the two login reply codes. -/
theorem authenticate_outcomes (arrivals : List Msg) (m : Msg) :
    (wait_for_message authPred arrivals = some m → m.code = MSG_LOGIN_OK →
      authenticate arrivals = .success) ∧
    (wait_for_message authPred arrivals = some m → m.code = MSG_LOGIN_ERROR →
      authenticate arrivals = .authenticationError) ∧
    (wait_for_message authPred arrivals = none →
      authenticate arrivals = .timeoutError) ∧
    authenticate arrivals ≠ .protocolError := by
  refine ⟨fun hf hc => ?_, fun hf hc => ?_, fun hf => ?_, ?_⟩
  · simp [authenticate, hf, hc]
  · simp [authenticate, hf, hc, MSG_LOGIN_ERROR, MSG_LOGIN_OK]
  · simp [authenticate, hf]
  · unfold authenticate
    cases hf : wait_for_message authPred arrivals with
    | none => simp
    | some m' =>
      have hp : authPred m' = true := List.find?_some hf
      simp only [authPred, MSG_LOGIN_OK, MSG_LOGIN_ERROR, Bool.or_eq_true, beq_iff_eq] at hp
      rcases hp with hp | hp <;> simp [hp, MSG_LOGIN_OK, MSG_LOGIN_ERROR]

/-- C3 amended witness: the outcome theorem applied to a single-message
arrival list carrying `MSG_LOGIN_OK`, to one carrying `MSG_LOGIN_ERROR`,
and to the empty arrival list (timeout). -/
theorem authenticate_outcomes_witness :
    (wait_for_message authPred [⟨2, []⟩] = some ⟨2, []⟩ ∧ (⟨2, []⟩ : Msg).code = MSG_LOGIN_OK ∧
      authenticate [⟨2, []⟩] = .success) ∧
    (wait_for_message authPred [⟨3, [1]⟩] = some ⟨3, [1]⟩ ∧
      (⟨3, [1]⟩ : Msg).code = MSG_LOGIN_ERROR ∧
      authenticate [⟨3, [1]⟩] = .authenticationError) ∧
    (wait_for_message authPred [] = none ∧ authenticate [] = .timeoutError) ∧
    authenticate [⟨2, []⟩] ≠ .protocolError :=
  ⟨⟨by decide, by decide,
    (authenticate_outcomes [⟨2, []⟩] ⟨2, []⟩).1 (by decide) (by decide)⟩,
   ⟨by decide, by decide,
    (authenticate_outcomes [⟨3, [1]⟩] ⟨3, [1]⟩).2.1 (by decide) (by decide)⟩,
   ⟨by decide, (authenticate_outcomes [] ⟨0, []⟩).2.2.1 (by decide)⟩,
   (authenticate_outcomes [⟨2, []⟩] ⟨2, []⟩).2.2.2⟩

/-!
Connection teardown (`connection.ServerConnection`).

`_recv_loop` wraps its read loop in `try/except Exception/finally`; every
exception of the loop body is caught (so the task finishes normally after an
I/O error) and the `finally` block unconditionally awaits
`self._on_disconnect(exc)` — once per loop termination, with the caught
exception (or `None`).  `close()` closes the writer (errors swallowed),
cancels the receive task and awaits it under `contextlib.suppress(Exception)`,
then awaits `self._on_disconnect(None)` and sets `_closed`; there is no
"already closed" guard.  The suppress does NOT cover
`asyncio.CancelledError`, a `BaseException` on Python ≥ 3.8: when the
receive task ends cancelled — the close-on-a-live-connection case —
`await self._task` re-raises `CancelledError` out of `close()`, skipping
close's own `on_disconnect(None)` and `_closed.set()`.  When the task had
already finished (its loop exceptions being caught internally), the await
returns and `close()` reaches its callback.
-/

/-- A teardown event of one `ServerConnection`: the receive loop terminating
with its caught exception (`none` for a clean cancel), or a `close()` call.
`awaitRaised` records whether `await self._task` re-raised
`CancelledError` (true exactly when the receive task ended cancelled —
close on a live connection; false when the task was absent or had already
finished normally). -/
inductive ConnEvent where
  | recvLoopEnd (exc : Option String)
  | closeCall (awaitRaised : Bool)
  deriving DecidableEq, Repr

/-- Teardown-relevant state of a `ServerConnection`: whether the `_closed`
event has been set, and the arguments of every `_on_disconnect` invocation so
far, in order. -/
structure ConnState where
  closedSet : Bool
  disconnects : List (Option String)
  deriving DecidableEq, Repr

/-- One teardown event: the `finally` of `_recv_loop` appends
`on_disconnect(exc)` and sets `_closed`.  `close()` appends
`on_disconnect(None)` and sets `_closed` when its await of the receive task
returns; when that await re-raises `CancelledError` (escaping
`suppress(Exception)`), `close()` propagates it before reaching either, so
the state is unchanged.  Neither path consults any already-closed flag. -/
def connStep (s : ConnState) : ConnEvent → ConnState
  | .recvLoopEnd exc => ⟨true, s.disconnects ++ [exc]⟩
  | .closeCall raised =>
    if raised then s
    else ⟨true, s.disconnects ++ [none]⟩

/-- A connection's teardown history from its initial state. -/
def runConn (events : List ConnEvent) : ConnState :=
  events.foldl connStep ⟨false, []⟩

/-- C4 counterexample: a receive loop terminating on an I/O error followed by
a caller's `close()` (whose await of the already-finished task returns
normally, the loop having caught its own exception) invokes the disconnect
callback twice — once with the error, once with no error — so the callback
is not invoked exactly once per connection lifetime when `close()` is called
after the loop has terminated. -/
theorem disconnect_once_cex :
    runConn [.recvLoopEnd (some "io error"), .closeCall false] =
      ⟨true, [some "io error", none]⟩ ∧
    (runConn [.recvLoopEnd (some "io error"), .closeCall false]).disconnects.length = 2 := by
  constructor <;> rfl

lemma runConn_from (init : ConnState) (events : List ConnEvent) :
    (events.foldl connStep init).disconnects =
      init.disconnects ++ events.flatMap (fun e =>
        match e with
        | .recvLoopEnd exc => [exc]
        | .closeCall raised => if raised then [] else [none]) := by
  induction events generalizing init with
  | nil => simp
  | cons e es ih =>
    cases e with
    | recvLoopEnd exc => simp [connStep, ih]
    | closeCall raised => cases raised <;> simp [connStep, ih]

/-- C4 amended: the disconnect callback is invoked once per terminating
event — with the triggering error (or none) each time the receive loop
terminates, and with no error by each `close()` call whose await of the
receive task returns (the task absent or already finished).  When the
receive task ends cancelled — `close()` on a live connection — the
`CancelledError` escapes `suppress(Exception)` and `close()` raises,
skipping its own callback invocation (the loop's `finally` having already
invoked it once for that termination).  `close()` after the receive loop has
already terminated does not raise but invokes the callback again, so the
callback is not invoked exactly once per lifetime. -/
theorem disconnect_per_event (events : List ConnEvent) :
    (runConn events).disconnects = events.flatMap (fun e =>
      match e with
      | .recvLoopEnd exc => [exc]
      | .closeCall raised => if raised then [] else [none]) ∧
    (runConn events).disconnects.length = (events.filter (fun e =>
      match e with
      | .recvLoopEnd _ => true
      | .closeCall raised => !raised)).length := by
  have h := runConn_from ⟨false, []⟩ events
  simp only [List.nil_append] at h
  refine ⟨h, ?_⟩
  rw [runConn, h]
  clear h
  induction events with
  | nil => rfl
  | cons e es ih =>
    cases e with
    | recvLoopEnd exc => simpa using ih
    | closeCall raised => cases raised <;> simpa using ih

/-!
Search result decoding (`protocol.decode_search_result`) and the per-search
listener (`search.SearchManager.search.listener`).
-/

/-- The file-entry loop of `decode_search_result`: `file_count` repetitions of
`[string(filename)][u32 size]`, each bounds-checked.  Returns the entries and
the final offset. -/
def readFileEntries : Nat → List Nat → Nat → Option (List (List Nat × Nat) × Nat)
  | 0, _, offset => some ([], offset)
  | n + 1, payload, offset => do
    let (name, o1) ← unpack_string payload offset
    if o1 + 4 > payload.length then none
    else
      let size := readU32 (payload.drop o1)
      let (rest, o2) ← readFileEntries n payload (o1 + 4)
      some ((name, size) :: rest, o2)

/-- The decoded form of a search-result payload. -/
structure DecodedResult where
  query : List Nat
  user : List Nat
  folder : List Nat
  files : List (List Nat × Nat)
  deriving DecidableEq, Repr

/-- `protocol.decode_search_result(payload)`:
`[query][user][folder][file_count: 1 byte][file_count × [filename][size: u32]]`.
The source wraps the body in `try/except` and re-raises any failure as
`ValueError`; all failures collapse to `none`. -/
def decode_search_result (payload : List Nat) : Option DecodedResult := do
  let (query, o1) ← unpack_string payload 0
  let (user, o2) ← unpack_string payload o1
  let (folder, o3) ← unpack_string payload o2
  if o3 ≥ payload.length then none
  else
    let fileCount := payload.getD o3 0
    let (files, _) ← readFileEntries fileCount payload (o3 + 1)
    some ⟨query, user, folder, files⟩

/-- Python `str.lower()`, modelled on the UTF-8 byte representation for
ASCII characters: byte values 65–90 (`A`–`Z`) map to 97–122 (`a`–`z`).
On an ASCII string (every byte < 128) this is exactly `str.lower()`:
UTF-8 decoding is the identity on such bytes and Python's Unicode lowercase
mapping restricted to ASCII is this byte map.  `str.lower()` also lowercases
non-ASCII letters, which this byte map does not; theorems about the query
comparison are therefore scoped to ASCII strings. -/
def lowerAsciiByte (b : Nat) : Nat := if 65 ≤ b ∧ b ≤ 90 then b + 32 else b

/-- `str.lower()` of a whole string, byte-wise (exact on ASCII strings). -/
def lowerAscii (s : List Nat) : List Nat := s.map lowerAsciiByte

/-- An ASCII byte string: the domain on which `lowerAscii` coincides with
Python's `str.lower()`. -/
def IsAsciiStr (s : List Nat) : Prop := ∀ b ∈ s, b < 128

instance (s : List Nat) : Decidable (IsAsciiStr s) :=
  List.decidableBAll _ s

/-- `types.SearchResult` as constructed by the search listener (strings as
UTF-8 bytes, files as `(filename, size)` pairs). -/
structure SearchResult where
  query : List Nat
  user : List Nat
  folder : List Nat
  files : List (List Nat × Nat)
  rawPayload : List Nat
  deriving DecidableEq, Repr

/-- `SearchManager.search.listener(msg)`: decode the payload; on decode
failure swallow the error (print, enqueue nothing); on a query that is not
case-insensitively equal to the requested one
(`decoded["query"].lower() != query.lower()`), return early (enqueue
nothing); otherwise enqueue the constructed `SearchResult`.  The returned
`Option` is what (if anything) is enqueued for the consumer.  The `lower`
comparison is modelled by `lowerAscii`, exact precisely when both query
strings are ASCII. -/
def listener (query : List Nat) (msg : Msg) : Option SearchResult :=
  match decode_search_result msg.payload with
  | none => none
  | some d =>
    if lowerAscii d.query ≠ lowerAscii query then none
    else some ⟨d.query, d.user, d.folder, d.files, msg.payload⟩

/-- C6: for ASCII queries — the domain on which the byte-wise model of
`str.lower()` is exact — a successfully decoded search reply is yielded to
the consumer exactly when its embedded query equals the requested query up
to case (in particular when it differs only in case), is silently dropped —
neither yielded nor an error — when the queries differ beyond case, and a
reply whose payload fails to decode is swallowed and yields nothing. -/
theorem search_filtering (q : List Nat) (msg : Msg) (d : DecodedResult)
    (_hq : IsAsciiStr q) (_hdq : IsAsciiStr d.query) :
    (decode_search_result msg.payload = some d →
      lowerAscii d.query = lowerAscii q →
      listener q msg = some ⟨d.query, d.user, d.folder, d.files, msg.payload⟩) ∧
    (decode_search_result msg.payload = some d →
      lowerAscii d.query ≠ lowerAscii q → listener q msg = none) ∧
    (decode_search_result msg.payload = none → listener q msg = none) := by
  refine ⟨fun hd hqq => ?_, fun hd hqq => ?_, fun hd => ?_⟩
  · simp [listener, hd, hqq]
  · simp [listener, hd, hqq]
  · simp [listener, hd]

/-- C6 witness: the filtering theorem applied to a payload embedding the
ASCII query `"AB"` against requested query `"ab"` (differs only in case:
yielded), against requested query `"x"` (different query: dropped), and to
a malformed two-byte payload (decode failure: swallowed). -/
theorem search_filtering_witness :
    (IsAsciiStr [97, 98] ∧ IsAsciiStr [65, 66] ∧
      decode_search_result [0, 2, 65, 66, 0, 1, 117, 0, 1, 102, 0] =
        some ⟨[65, 66], [117], [102], []⟩ ∧
      lowerAscii [65, 66] = lowerAscii [97, 98] ∧
      listener [97, 98] ⟨17, [0, 2, 65, 66, 0, 1, 117, 0, 1, 102, 0]⟩ =
        some ⟨[65, 66], [117], [102], [], [0, 2, 65, 66, 0, 1, 117, 0, 1, 102, 0]⟩) ∧
    (IsAsciiStr [120] ∧ lowerAscii [65, 66] ≠ lowerAscii [120] ∧
      listener [120] ⟨17, [0, 2, 65, 66, 0, 1, 117, 0, 1, 102, 0]⟩ = none) ∧
    (decode_search_result [0, 5] = none ∧ listener [97, 98] ⟨17, [0, 5]⟩ = none) :=
  ⟨⟨by decide, by decide, by decide, by decide,
    (search_filtering [97, 98] ⟨17, [0, 2, 65, 66, 0, 1, 117, 0, 1, 102, 0]⟩
      ⟨[65, 66], [117], [102], []⟩ (by decide) (by decide)).1 (by decide) (by decide)⟩,
   ⟨by decide, by decide,
    (search_filtering [120] ⟨17, [0, 2, 65, 66, 0, 1, 117, 0, 1, 102, 0]⟩
      ⟨[65, 66], [117], [102], []⟩ (by decide) (by decide)).2.1 (by decide) (by decide)⟩,
   ⟨by decide,
    (search_filtering [97, 98] ⟨17, [0, 5]⟩ ⟨[], [], [], []⟩
      (by decide) (by decide)).2.2 (by decide)⟩⟩

/-!
Listener registration (`client.SoulseekClient._register_listener` /
`_unregister_listener`) and the search subscription lifecycle
(`search.SearchManager.search`).

The listener table `self._listeners` maps a type code to the list of
callbacks in registration order; callbacks are compared by identity
(`c is not callback`), modelled by numeric listener identities.  The table
is modelled as a total function defaulting to the empty list, which agrees
with `dict.setdefault(code, [])` and with the `if code in self._listeners`
guard of unregistration.
-/

/-- `SoulseekClient._register_listener(code, callback)`:
`self._listeners.setdefault(code, []).append(callback)`. -/
def registerListener (code lid : Nat) (t : Nat → List Nat) : Nat → List Nat :=
  fun c => if c = code then t c ++ [lid] else t c

/-- `SoulseekClient._unregister_listener(code, callback)`: replace the entry
by `[c for c in self._listeners[code] if c is not callback]`. -/
def unregisterListener (code lid : Nat) (t : Nat → List Nat) : Nat → List Nat :=
  fun c => if c = code then (t c).filter (fun x => x != lid) else t c

/-- The exit paths of the `async for` sequence produced by
`SearchManager.search`. -/
inductive SearchExit where
  | deadlineExhausted
  | consumerAbandoned
  | sendError
  | iterationError
  deriving DecidableEq, Repr

/-- The listener-table effect of one `SearchManager.search(query, timeout)`
call: `self._register(MSG_SEARCH_RESULT, listener)` runs before the `try`
block; the body (send, timed yield loop) never touches the table; the
`finally` block runs `self._unregister(MSG_SEARCH_RESULT, listener)` on
every exit path — normal deadline exhaustion, consumer abandonment
(generator close), and an error raised by the send or the iteration — which
is the `exit` parameter below. -/
def searchLifecycle (lid : Nat) (exit : SearchExit) (t : Nat → List Nat) :
    Nat → List Nat :=
  match exit with
  | _ => unregisterListener MSG_SEARCH_RESULT lid
      (registerListener MSG_SEARCH_RESULT lid t)

/-- C7: a search call registers exactly one subscription for
`MSG_SEARCH_RESULT` (the table entry grows by exactly its fresh listener),
and on every exit path of the produced sequence the subscription is
unregistered: afterwards the table entry for `MSG_SEARCH_RESULT` no longer
contains the search's listener, and — the listener being fresh — the whole
table is restored to its prior state, entries for other codes untouched. -/
theorem search_subscription_lifecycle (lid : Nat) (exit : SearchExit)
    (t : Nat → List Nat) (hfresh : lid ∉ t MSG_SEARCH_RESULT) :
    (registerListener MSG_SEARCH_RESULT lid t) MSG_SEARCH_RESULT =
      t MSG_SEARCH_RESULT ++ [lid] ∧
    lid ∉ (searchLifecycle lid exit t) MSG_SEARCH_RESULT ∧
    (∀ c, searchLifecycle lid exit t c = t c) := by
  have h1 : (t MSG_SEARCH_RESULT).filter (fun x => x != lid) = t MSG_SEARCH_RESULT :=
    List.filter_eq_self.mpr (fun a ha => by
      simp only [bne_iff_ne, ne_eq, decide_eq_true_eq]
      exact fun hh => hfresh (hh ▸ ha))
  refine ⟨by simp [registerListener], ?_, fun c => ?_⟩
  · intro hmem
    simp [searchLifecycle, unregisterListener, registerListener, List.mem_filter] at hmem
  · by_cases hc : c = MSG_SEARCH_RESULT
    · subst hc
      simp [searchLifecycle, unregisterListener, registerListener, List.filter_append, h1]
    · simp [searchLifecycle, unregisterListener, registerListener, hc]

/-- C7 witness: the lifecycle theorem applied to listener identity 0, the
deadline-exhaustion exit path and the empty table, evaluated at the
search-result code and at code 5. -/
theorem search_subscription_lifecycle_witness :
    (0 : Nat) ∉ (fun _ => ([] : List Nat)) MSG_SEARCH_RESULT ∧
    ((registerListener MSG_SEARCH_RESULT 0 (fun _ => [])) MSG_SEARCH_RESULT =
      (fun _ => ([] : List Nat)) MSG_SEARCH_RESULT ++ [0] ∧
     0 ∉ (searchLifecycle 0 .deadlineExhausted (fun _ => [])) MSG_SEARCH_RESULT ∧
     (∀ c, searchLifecycle 0 .deadlineExhausted (fun _ => ([] : List Nat)) c =
        (fun _ => ([] : List Nat)) c)) :=
  ⟨by simp,
   search_subscription_lifecycle 0 .deadlineExhausted (fun _ => []) (by simp)⟩

/-!
Download manager (`download.DownloadManager`).
-/

/-- A file record inside a search result, as consumed by `download_folder`. -/
structure DFile where
  filename : String
  size : Nat
  deriving DecidableEq, Repr

/-- A search result as consumed by `download_folder` (only the fields it
reads). -/
structure SResult where
  user : String
  folder : String
  files : List DFile
  deriving DecidableEq, Repr

/-- The arguments of one `download_file` call issued by `download_folder`. -/
structure DownloadCall where
  user : String
  remotePath : String
  host : String
  port : Nat
  destination : String
  deriving DecidableEq, Repr

/-- `DownloadManager.download_folder(user, folder_path, host, port, results,
destination_dir)`: iterate the results; `continue` past any result whose
user or folder differs; for each file of a matching result issue one
`download_file` with `remote_path = f"{r.folder}/{f.filename}".replace("//",
"/")` and `dest = f"{destination_dir}/{f.filename}"`, collecting the
returned handles in order. -/
def download_folder (user folderPath host : String) (port : Nat)
    (destinationDir : String) : List SResult → List DownloadCall
  | [] => []
  | r :: rs =>
    if r.user ≠ user then download_folder user folderPath host port destinationDir rs
    else if r.folder ≠ folderPath then
      download_folder user folderPath host port destinationDir rs
    else
      r.files.map (fun f =>
        ⟨user, (r.folder ++ "/" ++ f.filename).replace "//" "/", host, port,
         destinationDir ++ "/" ++ f.filename⟩) ++
      download_folder user folderPath host port destinationDir rs

/-- The spec's description of `download_folder`, for refinement comparison:
filter the supplied result set to entries matching `user` and `folder`, and
issue one `download_file` per contained file record. -/
def download_folder_spec (user folderPath host : String) (port : Nat)
    (destinationDir : String) (results : List SResult) : List DownloadCall :=
  ((results.filter (fun r => r.user == user && r.folder == folderPath)).map
    (fun r => r.files.map (fun f =>
      ⟨user, (r.folder ++ "/" ++ f.filename).replace "//" "/", host, port,
       destinationDir ++ "/" ++ f.filename⟩))).flatten

/-- C8: `download_folder` issues exactly one `download_file` per file record
of the results matching the given user and folder (the filter-then-fan-out
description), returning the collected handles in order; results for any
other user or folder contribute no calls, and the count of issued calls is
the total file count of the matching results. -/
theorem download_folder_filters (user folderPath host : String) (port : Nat)
    (dest : String) (results : List SResult) :
    download_folder user folderPath host port dest results =
      download_folder_spec user folderPath host port dest results ∧
    (download_folder user folderPath host port dest results).length =
      ((results.filter (fun r => r.user == user && r.folder == folderPath)).map
        (fun r => r.files.length)).sum := by
  have hmain : download_folder user folderPath host port dest results =
      download_folder_spec user folderPath host port dest results := by
    induction results with
    | nil => rfl
    | cons r rs ih =>
      by_cases hu : r.user = user
      · by_cases hf : r.folder = folderPath
        · have hb1 : (r.user == user) = true := by simp [hu]
          have hb2 : (r.folder == folderPath) = true := by simp [hf]
          simp [download_folder, download_folder_spec, hu, hf, hb1, hb2,
            List.filter, ih]
        · have hb2 : (r.folder == folderPath) = false := by simp [hf]
          simp [download_folder, download_folder_spec, hu, hf, hb2,
            List.filter, ih]
      · have hb1 : (r.user == user) = false := by simp [hu]
        simp [download_folder, download_folder_spec, hu, hb1, List.filter, ih]
  refine ⟨hmain, ?_⟩
  rw [hmain]
  simp [download_folder_spec, Function.comp_def]

/-- `types.DownloadStatus`. -/
inductive DownloadStatus where
  | queued
  | connecting
  | inProgress
  | completed
  | failed
  | cancelled
  deriving DecidableEq, Repr

/-- `DownloadHandle.done()`: the terminal statuses. -/
def DownloadStatus.isTerminal : DownloadStatus → Bool
  | .completed => true
  | .failed => true
  | .cancelled => true
  | _ => false

/-- The fields of a `types.DownloadHandle` that `DownloadManager.cancel`
reads or writes, together with the observable state of its `_future`:
whether the execution task has been attached yet (`_future is not None`) and
whether that task is done. -/
structure Handle where
  status : DownloadStatus
  bytesReceived : Nat
  futurePresent : Bool
  futureDone : Bool
  deriving DecidableEq, Repr

/-- The payload of the `download_cancelled` notification that `cancel`
emits: the frozen `bytes_received` and the status. -/
structure CancelNotification where
  bytesReceived : Nat
  status : DownloadStatus
  deriving DecidableEq, Repr

/-- `DownloadManager.cancel(handle_id)`: look the id up in the active set
(`entry`; `none` for an unknown id, which returns immediately).  If the
handle's `_future` exists and is not done, cancel it, set the status to
`cancelled` and emit one `download_cancelled` notification with the current
`bytes_received`; otherwise do nothing.  Returns the updated entry and the
emitted notifications. -/
def cancel (entry : Option Handle) : Option Handle × List CancelNotification :=
  match entry with
  | none => (none, [])
  | some h =>
    if h.futurePresent && !h.futureDone then
      (some { h with status := .cancelled }, [⟨h.bytesReceived, .cancelled⟩])
    else (some h, [])

/-- C9 counterexample: a transfer whose status is already terminal
(`completed`) but whose execution task has not yet been observed done — the
state immediately after the completion handler set the status, while its
completion notification is still being awaited, or right after a prior
`cancel` before the event loop processes the task cancellation.  `cancel`
is not a no-op there: it overwrites the terminal status with `cancelled`
and emits a cancellation notification, because the source guards on
`handle._future.done()`, not on the status. -/
theorem cancel_terminal_cex :
    cancel (some ⟨.completed, 5, true, false⟩) =
      (some ⟨.cancelled, 5, true, false⟩, [⟨5, .cancelled⟩]) ∧
    DownloadStatus.isTerminal .completed = true ∧
    (cancel (some ⟨.completed, 5, true, false⟩)).2 ≠ [] := by
  refine ⟨rfl, rfl, by decide⟩

/-- C9 amended: `cancel` is a no-op (no state change, no emission) exactly
when the id is unknown, the execution task has not been attached, or the
execution task is already done; otherwise — regardless of the recorded
status — it cancels the task, sets the status to `cancelled`, leaves
`bytes_received` unchanged at its last observed value, and emits exactly one
cancellation notification carrying that frozen value.  (When the task is
done the status is terminal, so the no-op clause covers the claim's
terminal-status case; the converse, a terminal status with an unfinished
task, is the counterexample above.) -/
theorem cancel_guard (h : Handle) :
    cancel none = (none, []) ∧
    (h.futureDone = true → cancel (some h) = (some h, [])) ∧
    (h.futurePresent = false → cancel (some h) = (some h, [])) ∧
    (h.futurePresent = true → h.futureDone = false →
      cancel (some h) =
        (some { h with status := .cancelled }, [⟨h.bytesReceived, .cancelled⟩])) := by
  refine ⟨rfl, fun hd => ?_, fun hp => ?_, fun hp hd => ?_⟩
  · simp [cancel, hd]
  · simp [cancel, hp]
  · simp [cancel, hp, hd]

/-- C9 amended witness: the guard theorem applied to a handle with a done
task (no-op), to one with no task attached (no-op), and to an in-progress
handle with a live task (cancelled, bytes frozen at 7, one notification). -/
theorem cancel_guard_witness :
    (Handle.futureDone ⟨.completed, 5, true, true⟩ = true ∧
      cancel (some ⟨.completed, 5, true, true⟩) = (some ⟨.completed, 5, true, true⟩, [])) ∧
    (Handle.futurePresent ⟨.queued, 0, false, false⟩ = false ∧
      cancel (some ⟨.queued, 0, false, false⟩) = (some ⟨.queued, 0, false, false⟩, [])) ∧
    (Handle.futurePresent ⟨.inProgress, 7, true, false⟩ = true ∧
      Handle.futureDone ⟨.inProgress, 7, true, false⟩ = false ∧
      cancel (some ⟨.inProgress, 7, true, false⟩) =
        (some ⟨.cancelled, 7, true, false⟩, [⟨7, .cancelled⟩])) :=
  ⟨⟨rfl, (cancel_guard ⟨.completed, 5, true, true⟩).2.1 rfl⟩,
   ⟨rfl, (cancel_guard ⟨.queued, 0, false, false⟩).2.2.1 rfl⟩,
   ⟨rfl, rfl, (cancel_guard ⟨.inProgress, 7, true, false⟩).2.2.2 rfl rfl⟩⟩

end Pyslsk
